import Mathlib

/-!
Verification development for the MCP Inspector CLI core: the argument
resolution and single-shot RPC execution pipeline.  Definitions are a
shallow embedding of the TypeScript/JavaScript sources:

* `parseKeyValuePair`, `parseArgsCli`, `executeToolCall` model
  `cli/src/index.ts` and its earlier variant (the commander-based CLI
  child process entry point);
* `loadConfigFile`, `parseArgsTop`, `mainTop` model `bin/cli.js` (the
  top-level front-end);
* `getConfigFromEnvironment` models the environment-variable ingestion
  channel of `cli/src/index.ts`.

Strings that undergo character-level computation (key=value splitting)
are modelled as `List Char`; strings that are only stored and compared
are modelled as `String`.  JavaScript objects are modelled as
association lists with JS object-spread update semantics (`setKey` /
`overlay`).
-/

namespace Inspector

/-- Character-level model of a JavaScript string. -/
abbrev Str := List Char

/-- Lookup in an association list: value of the first entry whose key
matches, mirroring property access on a JS object (keys are unique in
actual JS objects, so first = only). -/
def lookupKey {α : Type} [DecidableEq α] {β : Type} (k : α) : List (α × β) → Option β
  | [] => none
  | (k', v) :: rest => if k' = k then some v else lookupKey k rest

/-- JS object update `{ ...m, [k]: v }` restricted to a single key:
if `k` is already bound its first binding is updated in place,
otherwise `(k, v)` is appended (JS objects keep the original insertion
position of an updated key). -/
def setKey {α : Type} [DecidableEq α] {β : Type} : List (α × β) → α → β → List (α × β)
  | [], k, v => [(k, v)]
  | (k', v') :: rest, k, v =>
    if k' = k then (k, v) :: rest else (k', v') :: setKey rest k v

/-- JS object spread `{ ...base, ...over }`: every binding of `over`
is written on top of `base`, later writes winning. -/
def overlay {α : Type} [DecidableEq α] {β : Type}
    (base over : List (α × β)) : List (α × β) :=
  over.foldl (fun acc kv => setKey acc kv.1 kv.2) base

/-- Keys of an association list. -/
def keysOf {α β : Type} (m : List (α × β)) : List α := m.map Prod.fst

/-- JavaScript `value.split("=")`: splits a string on every occurrence
of the character `=`; always returns a non-empty list of segments. -/
def jsSplitEq : Str → List Str
  | [] => [[]]
  | c :: rest =>
    if c = '=' then
      [] :: jsSplitEq rest
    else
      match jsSplitEq rest with
      | h :: t => (c :: h) :: t
      | [] => [[c]]

/-- Whether a string contains the character `=`. -/
def hasEq : Str → Bool
  | [] => false
  | c :: rest => c = '=' || hasEq rest

/-- Spec-side split (§4.1 "split on the first `=` only"): the key is
everything before the first `=`. -/
def specFirstKey : Str → Str
  | [] => []
  | c :: rest => if c = '=' then [] else c :: specFirstKey rest

/-- Spec-side split (§4.1): the value is everything after the first
`=`, so it may itself contain further `=` characters. -/
def specFirstVal : Str → Str
  | [] => []
  | c :: rest => if c = '=' then rest else specFirstVal rest

/-- The second segment produced by the JS split: the text strictly
between the first and the second `=` (all of `specFirstVal` when the
string contains a single `=`). -/
def secondSegment (s : Str) : Str := specFirstKey (specFirstVal s)


/-- `parseKeyValuePair` from the CLI child process source:

```ts
const [key, val] = value.split("=");
if (key && val) { return { ...previous, [key]: val }; }
return previous;
```

`key`/`val` are the first two segments of the JS split (a missing or
empty segment is falsy and causes the pair to be dropped). -/
def parseKeyValuePair (value : Str) (previous : List (Str × Str)) : List (Str × Str) :=
  match jsSplitEq value with
  | key :: val :: _ => if key ≠ [] ∧ val ≠ [] then setKey previous key val else previous
  | _ => previous

/-! ### Child-process environment layering (Transport Launcher)

From the CLI child process source:

```ts
const defaultEnvironment = {
    ...getDefaultEnvironment(),
    ...(process.env.CLI_ENV_VARS ? JSON.parse(process.env.CLI_ENV_VARS) : {})
};
...
const env = { ...process.env, ...defaultEnvironment, ...envVars };
```
-/

/-- An environment: a JS object mapping variable names to values. -/
abbrev Env := List (String × String)

/-- The module-level `defaultEnvironment` constant: the SDK protocol
defaults overlaid with the out-of-band JSON-encoded environment
variables (`CLI_ENV_VARS` / `MCP_ENV_VARS`), parametrised over both. -/
def defaultEnvironment (sdkDefaults oob : Env) : Env :=
  overlay sdkDefaults oob

/-- The environment handed to the spawned MCP server process:
`{ ...process.env, ...defaultEnvironment, ...envVars }`. -/
def buildChildEnv (ambient sdkDefaults oob envVars : Env) : Env :=
  overlay (overlay ambient (defaultEnvironment sdkDefaults oob)) envVars

/-! ### Tool-Call Executor (`executeCliToolCall` try/catch structure)

The executor creates the transport, connects, issues the single call,
prints the result, and closes the transport; the `catch` block closes
the transport again (logging a failure of that close) and rethrows the
original exception:

```ts
try {
    ... connect, callTool, print ...
    await transport.close();
} catch (error) {
    console.error("Error executing tool call:", error);
    if (transport) {
        try { await transport.close(); }
        catch (closeError) { console.error("Error closing transport:", closeError); }
    }
    throw error;
}
```

The model is parametrised over the outcome of the protocol exchange
(`call`: connect + callTool, collapsed into one `Except`) and over the
outcomes of the first and second `transport.close()` invocations
(`none` = close succeeded, `some e` = close threw `e`). -/

/-- Observable outcome of one executor run: what propagates to the
caller, how many times `transport.close()` was invoked, and which
close errors were merely logged (to stderr) rather than propagated. -/
structure ExecOutcome (Res Err : Type) where
  result : Except Err Res
  closeCalls : Nat
  loggedCloseErrors : List Err

/-- Shallow embedding of the executor's control flow once the
transport exists (the spawn itself succeeded). -/
def executeToolCall {Res Err : Type} (call : Except Err Res)
    (closeA closeB : Option Err) : ExecOutcome Res Err :=
  match call with
  | .ok r =>
    match closeA with
    | none => ⟨.ok r, 1, []⟩
    | some ce =>
      -- the close on the success path threw: control reaches `catch`
      -- with `ce`, which closes again and rethrows `ce`
      match closeB with
      | none => ⟨.error ce, 2, []⟩
      | some ce2 => ⟨.error ce, 2, [ce2]⟩
  | .error e =>
    match closeA with
    | none => ⟨.error e, 1, []⟩
    | some ce => ⟨.error e, 1, [ce]⟩

/-! ### Standard-output trace of a successful CLI run

`executeCliToolCall` in `cli/src/index.ts` writes with `console.log`
(standard output) on the success path, in source order:
lines 33, 34, 50, 75, 84, 91, 92. -/

/-- Output stream selector: `console.log` writes to `out`,
`console.error` to `err`. -/
inductive Stream' where
  | out
  | err
deriving DecidableEq

/-- The sequence of standard-output writes of a successful CLI-mode
run of `executeCliToolCall` (each `console.log` call emits one line),
parametrised over the interpolated values. -/
def cliSuccessStdout (toolName toolArgsJson cmd argsJoined resultJson : String) :
    List (Stream' × String) :=
  [(.out, "Executing tool call: " ++ toolName),
   (.out, "Tool arguments: " ++ toolArgsJson),
   (.out, "Stdio transport: command=" ++ cmd ++ ", args=" ++ argsJoined),
   (.out, "Connected to MCP server via stdio transport"),
   (.out, "Calling tool: " ++ toolName),
   (.out, "Tool call result:"),
   (.out, resultJson)]

/-- Number of writes a trace makes to standard output. -/
def stdoutWrites (trace : List (Stream' × String)) : Nat :=
  (trace.filter (fun w => w.1 = Stream'.out)).length

/-! ### Configuration File Resolver (`loadConfigFile` in `bin/cli.js`) -/

/-- A server profile as stored in the configuration document; `args`
and `env` may be absent (`undefined`). -/
structure ServerProfile where
  command : String
  args : Option (List String)
  env : Option Env
deriving DecidableEq

/-- A parsed configuration document; `mcpServers` may be absent. -/
structure ConfigDoc where
  mcpServers : Option (List (String × ServerProfile))
deriving DecidableEq

/-- What the file system holds at a config path: no file, a file whose
content is not valid JSON, or a parsed document. -/
inductive FsFile where
  | missing
  | invalidJson (diagnostic : String)
  | doc (d : ConfigDoc)

/-- Abstract file system: resolved path to file content. -/
abbrev Fs := String → FsFile

/-- Errors of `loadConfigFile`; every constructor corresponds to a
`console.error` + `process.exit(1)` site in the source. -/
inductive ConfigError where
  | notFound (resolvedPath : String)
  | invalidJson (diagnostic : String)
  | profileNotFound (serverName : String) (available : List String)
deriving DecidableEq

/-- Exit code selected at each `loadConfigFile` error site : always
`process.exit(1)` in the source. -/
def ConfigError.exitCode : ConfigError → Nat
  | .notFound _ => 1
  | .invalidJson _ => 1
  | .profileNotFound _ _ => 1

/-- The profile names enumerated by the `Available servers:` line:
`Object.keys(parsedConfig.mcpServers || {})`. -/
def availableServers (d : ConfigDoc) : List String :=
  keysOf (d.mcpServers.getD [])

/-- `loadConfigFile(configPath, serverName)` from `bin/cli.js`:

```js
if (!fs.existsSync(resolvedConfigPath)) { ... exit(1); }
const parsedConfig = JSON.parse(configContent);       // SyntaxError → exit(1)
if (!parsedConfig.mcpServers || !parsedConfig.mcpServers[serverName]) {
    console.error(`Error: Server '${serverName}' not found in config file`);
    console.error(`Available servers: ${Object.keys(parsedConfig.mcpServers || {}).join(", ")}`);
    process.exit(1);
}
return parsedConfig.mcpServers[serverName];
```
-/
def loadConfigFile (fs : Fs) (configPath serverName : String) :
    Except ConfigError ServerProfile :=
  match fs configPath with
  | .missing => .error (.notFound configPath)
  | .invalidJson d => .error (.invalidJson d)
  | .doc cfg =>
    match cfg.mcpServers with
    | none => .error (.profileNotFound serverName [])
    | some servers =>
      match lookupKey serverName servers with
      | none => .error (.profileNotFound serverName (keysOf servers))
      | some p => .ok p

/-! ### Top-level front-end (`parseArgs` in `bin/cli.js`)

The model starts where commander hands back the collected option
values and the leftover positional tokens; `ParsedOpts` is exactly
that hand-off (absent single-value options are `""`, absent `--cli` is
`false`, repeatable options accumulate into lists).  The token list
was split beforehand on the first literal `--`: `remainingKnown` are
the positionals of the front segment, `remainingUnknown` the tokens of
the passthrough segment. -/

/-- Commander output for the top-level front-end. -/
structure ParsedOpts where
  envFlags : List String
  configPath : String
  serverName : String
  cliMode : Bool
  toolName : String
  toolArgs : List String
  remainingKnown : List String
  remainingUnknown : List String
deriving DecidableEq

/-- Environment overrides carried by the top-level result object:
either the raw `-e` flag strings (direct mode) or the profile's `env`
object (configuration-file mode) — the source assigns one or the
other wholesale to `result.envVars`. -/
inductive EnvSpec where
  | flags (raw : List String)
  | profileEnv (env : Env)
deriving DecidableEq

/-- The `result` object built by the top-level `parseArgs`. -/
structure TopArgs where
  mcpServerCommand : String
  mcpServerArgs : List String
  envVars : EnvSpec
  configPath : String
  serverName : String
  cliMode : Bool
  cliToolName : String
  cliToolArgs : List String
deriving DecidableEq

/-- Fatal validation / configuration outcomes of the top-level
`parseArgs`; each constructor is one `console.error` +
`process.exit(1)` site. -/
inductive ParseErr where
  | configWithoutServer
  | serverWithoutConfig
  | cliWithoutToolName
  | toolNameWithoutCli
  | toolArgsRequireCliAndName
  | cfg (e : ConfigError)
deriving DecidableEq

/-- Exit code at each top-level `parseArgs` error site: always
`process.exit(1)` in the source. -/
def ParseErr.exitCode : ParseErr → Nat
  | .configWithoutServer => 1
  | .serverWithoutConfig => 1
  | .cliWithoutToolName => 1
  | .toolNameWithoutCli => 1
  | .toolArgsRequireCliAndName => 1
  | .cfg e => e.exitCode

/-- Outcome of the top-level `parseArgs`, together with the list of
configuration files it actually opened (file I/O trace). -/
structure ParseOutcome where
  result : Except ParseErr TopArgs
  filesRead : List String

/-- The validation and resolution logic of the top-level `parseArgs`
(`bin/cli.js`), after commander.  Checks appear in source order:
`--config`/`--server` co-occurrence, `--cli`/`--tool-name`
co-occurrence, `--tool-arg` requiring both, then either the
configuration branch (which reads the file and returns early, ignoring
positionals and `-e` flags) or the positional branch (first merged
positional token is the server command, rest its arguments). -/
def parseArgsTop (fs : Fs) (o : ParsedOpts) : ParseOutcome :=
  if o.configPath ≠ "" ∧ o.serverName = "" then
    ⟨.error .configWithoutServer, []⟩
  else if o.configPath = "" ∧ o.serverName ≠ "" then
    ⟨.error .serverWithoutConfig, []⟩
  else if o.cliMode ∧ o.toolName = "" then
    ⟨.error .cliWithoutToolName, []⟩
  else if ¬o.cliMode ∧ o.toolName ≠ "" then
    ⟨.error .toolNameWithoutCli, []⟩
  else if o.toolArgs ≠ [] ∧ (¬o.cliMode ∨ o.toolName = "") then
    ⟨.error .toolArgsRequireCliAndName, []⟩
  else if o.configPath ≠ "" then
    match loadConfigFile fs o.configPath o.serverName with
    | .error e => ⟨.error (.cfg e), [o.configPath]⟩
    | .ok p =>
      ⟨.ok { mcpServerCommand := p.command,
             mcpServerArgs := p.args.getD [],
             envVars := .profileEnv (p.env.getD []),
             configPath := o.configPath,
             serverName := o.serverName,
             cliMode := o.cliMode,
             cliToolName := o.toolName,
             cliToolArgs := o.toolArgs }, [o.configPath]⟩
  else
    let merged := o.remainingKnown ++ o.remainingUnknown
    ⟨.ok { mcpServerCommand := merged.headD "",
           mcpServerArgs := merged.tail,
           envVars := .flags o.envFlags,
           configPath := o.configPath,
           serverName := o.serverName,
           cliMode := o.cliMode,
           cliToolName := o.toolName,
           cliToolArgs := o.toolArgs }, []⟩

/-- Which client the top-level `main` dispatches to. -/
inductive Mode where
  | web
  | cli
deriving DecidableEq

/-- The top-level `main`: parse, then enter either the web client or
the CLI client; a parse error terminates the process first (with the
error's exit code) and neither mode is entered. -/
def mainTop (fs : Fs) (o : ParsedOpts) : Except ParseErr (Mode × TopArgs) :=
  match (parseArgsTop fs o).result with
  | .error e => .error e
  | .ok a => .ok (if a.cliMode then (Mode.cli, a) else (Mode.web, a))

/-! ### CLI child process: argv channel (`parseArgs` of the commander
variant) and environment-variable channel (`getConfigFromEnvironment`
in `cli/src/index.ts`) -/

/-- Commander output for the CLI child's `parseArgs`: `--env` and
`--tool-arg` were already folded through `parseKeyValuePair`, and
`remaining` holds the leftover positional tokens. -/
structure CliOpts where
  env : List (Str × Str)
  toolName : String
  toolArg : List (Str × Str)
  remaining : List String

/-- Fatal outcomes of the CLI child's `parseArgs`; each constructor is
one `console.error` + `process.exit(1)` site. -/
inductive CliErr where
  | toolNameRequired
  | toolArgsRequireToolName
  | commandRequired
deriving DecidableEq

/-- Exit code at each CLI-child `parseArgs` error site: always
`process.exit(1)` in the source. -/
def CliErr.exitCode : CliErr → Nat
  | .toolNameRequired => 1
  | .toolArgsRequireToolName => 1
  | .commandRequired => 1

/-- The resolved invocation configuration of the CLI child. -/
structure CliConfig where
  mcpServerCommand : String
  mcpServerArgs : List String
  envVars : List (Str × Str)
  cliToolName : String
  cliToolArgs : List (Str × Str)

/-- The CLI child's `parseArgs` after commander: the first positional
token becomes the server command and the rest its arguments, then the
validations run in source order (`--tool-name` required, `--tool-arg`
requires `--tool-name`, server command required). -/
def parseArgsCli (o : CliOpts) : Except CliErr CliConfig :=
  let cmd := o.remaining.headD ""
  if o.toolName = "" then .error .toolNameRequired
  else if o.toolArg ≠ [] ∧ o.toolName = "" then .error .toolArgsRequireToolName
  else if cmd = "" then .error .commandRequired
  else .ok ⟨cmd, o.remaining.tail, o.env, o.toolName, o.toolArg⟩

/-- The CLI child's `main` for the argv channel, parametrised over the
execution step (which spawns the server): returns the exit code and
the list of server commands spawned.  A parse error exits with the
site's code before `executeCliToolCall` ever runs. -/
def mainCli (exec : CliConfig → Nat × List String) (o : CliOpts) : Nat × List String :=
  match parseArgsCli o with
  | .error e => (e.exitCode, [])
  | .ok cfg => exec cfg

/-- The relevant process environment variables read by
`getConfigFromEnvironment` (`none` = unset). -/
structure ProcEnv where
  mcpToolName : Option String
  mcpToolArgs : Option (List (String × String))
  mcpCommand : Option String
  mcpCommandArgs : Option String
  mcpEnvVars : Option Env

/-- The configuration object returned by `getConfigFromEnvironment`. -/
structure EnvChannelConfig where
  toolName : String
  toolArgs : List (String × String)
  command : Option String
  commandArgs : String
  envVars : Env

/-- `getConfigFromEnvironment` from `cli/src/index.ts`: `MCP_TOOL_NAME`
is required (unset or empty is falsy → `process.exit(1)`), the other
variables default. -/
def getConfigFromEnvironment (e : ProcEnv) : Except Nat EnvChannelConfig :=
  let toolName := e.mcpToolName.getD ""
  if toolName = "" then .error 1
  else
    .ok { toolName := toolName,
          toolArgs := e.mcpToolArgs.getD [],
          command := e.mcpCommand,
          commandArgs := e.mcpCommandArgs.getD "",
          envVars := e.mcpEnvVars.getD [] }

/-- The CLI child's `main` for the environment-variable channel,
parametrised over the execution step: a configuration error exits 1
before `executeCliToolCall` ever runs (so nothing is spawned). -/
def mainEnvChannel (exec : EnvChannelConfig → Nat × List String) (e : ProcEnv) :
    Nat × List String :=
  match getConfigFromEnvironment e with
  | .error code => (code, [])
  | .ok cfg => exec cfg

/-- Exit code selected by the error path of the top-level `parseArgs`,
`none` when parsing succeeded and the run continues. -/
def resultExitCode : Except ParseErr TopArgs → Option Nat
  | .error e => some e.exitCode
  | .ok _ => none

/-- Exit code selected by the error path of the top-level `main`,
`none` when a mode (web or CLI) was actually entered. -/
def mainExitCode : Except ParseErr (Mode × TopArgs) → Option Nat
  | .error e => some e.exitCode
  | .ok _ => none

/-! ## Helper lemmas -/

theorem lookupKey_setKey {α : Type} [DecidableEq α] {β : Type}
    (m : List (α × β)) (k k' : α) (v : β) :
    lookupKey k (setKey m k' v) = if k' = k then some v else lookupKey k m := by
  induction m with
  | nil =>
    by_cases h : k' = k <;> simp [setKey, lookupKey, h]
  | cons hd tl ih =>
    obtain ⟨k₀, v₀⟩ := hd
    by_cases h₀ : k₀ = k'
    · subst h₀
      by_cases h₁ : k₀ = k
      · subst h₁; simp [setKey, lookupKey]
      · simp [setKey, lookupKey, h₁]
    · by_cases h₁ : k₀ = k
      · subst h₁
        have hne : ¬k' = k₀ := fun h => h₀ h.symm
        simp [setKey, lookupKey, h₀, hne]
      · simp [setKey, lookupKey, h₀, h₁, ih]

theorem lookupKey_eq_none {α : Type} [DecidableEq α] {β : Type}
    (m : List (α × β)) (k : α) (h : k ∉ keysOf m) : lookupKey k m = none := by
  induction m with
  | nil => rfl
  | cons hd tl ih =>
    obtain ⟨k₀, v₀⟩ := hd
    simp only [keysOf, List.map_cons, List.mem_cons, not_or] at h
    have hne : ¬k₀ = k := fun hh => h.1 hh.symm
    rw [lookupKey, if_neg hne]
    exact ih h.2

theorem keysOf_setKey {α : Type} [DecidableEq α] {β : Type}
    (m : List (α × β)) (k : α) (v : β) :
    keysOf (setKey m k v) = if k ∈ keysOf m then keysOf m else keysOf m ++ [k] := by
  induction m with
  | nil => simp [setKey, keysOf]
  | cons hd tl ih =>
    obtain ⟨k₀, v₀⟩ := hd
    by_cases h₀ : k₀ = k
    · subst h₀; simp [setKey, keysOf]
    · have hne : ¬k = k₀ := fun h => h₀ h.symm
      simp only [setKey, if_neg h₀, keysOf, List.map_cons]
      rw [show (setKey tl k v).map Prod.fst = keysOf (setKey tl k v) from rfl, ih]
      simp only [keysOf]
      by_cases hm : k ∈ tl.map Prod.fst
      · rw [if_pos hm, if_pos (List.mem_cons_of_mem _ hm)]
      · rw [if_neg hm, if_neg (by simp [List.mem_cons, hne, hm])]
        simp

theorem nodup_keys_setKey {α : Type} [DecidableEq α] {β : Type}
    (m : List (α × β)) (k : α) (v : β) (h : (keysOf m).Nodup) :
    (keysOf (setKey m k v)).Nodup := by
  rw [keysOf_setKey]
  split
  · exact h
  · next hk => simpa [List.nodup_append] using ⟨h, hk⟩

theorem lookupKey_overlay {α : Type} [DecidableEq α] {β : Type}
    (base over : List (α × β)) (k : α) (hover : (keysOf over).Nodup) :
    lookupKey k (overlay base over) = (lookupKey k over).orElse (fun _ => lookupKey k base) := by
  induction over generalizing base with
  | nil => simp [overlay, lookupKey]
  | cons hd tl ih =>
    obtain ⟨k₀, v₀⟩ := hd
    have hcons : (keysOf ((k₀, v₀) :: tl)) = k₀ :: keysOf tl := rfl
    rw [hcons] at hover
    have htl : (keysOf tl).Nodup := (List.nodup_cons.mp hover).2
    have hk₀ : k₀ ∉ keysOf tl := (List.nodup_cons.mp hover).1
    show lookupKey k (overlay (setKey base k₀ v₀) tl) = _
    rw [ih (setKey base k₀ v₀) htl, lookupKey_setKey]
    by_cases h : k₀ = k
    · subst h
      rw [lookupKey_eq_none tl k₀ hk₀]
      simp [lookupKey, Option.orElse]
    · simp [lookupKey, h, Option.orElse]

theorem nodup_keys_overlay {α : Type} [DecidableEq α] {β : Type}
    (base over : List (α × β)) (h : (keysOf base).Nodup) :
    (keysOf (overlay base over)).Nodup := by
  induction over generalizing base with
  | nil => exact h
  | cons hd tl ih => exact ih (setKey base hd.1 hd.2) (nodup_keys_setKey base hd.1 hd.2 h)

theorem jsSplitEq_ne_nil (s : Str) : jsSplitEq s ≠ [] := by
  cases s with
  | nil => simp [jsSplitEq]
  | cons c rest =>
    by_cases h : c = '='
    · simp [jsSplitEq, h]
    · simp only [jsSplitEq, if_neg h]
      cases jsSplitEq rest <;> simp

theorem specFirstKey_of_not_hasEq (s : Str) (h : hasEq s = false) :
    specFirstKey s = s := by
  induction s with
  | nil => rfl
  | cons c rest ih =>
    simp only [hasEq, Bool.or_eq_false_iff, decide_eq_false_iff_not] at h
    rw [specFirstKey, if_neg h.1, ih h.2]

theorem jsSplitEq_eq (s : Str) :
    jsSplitEq s =
      if hasEq s then specFirstKey s :: jsSplitEq (specFirstVal s) else [s] := by
  induction s with
  | nil => simp [jsSplitEq, hasEq]
  | cons c rest ih =>
    by_cases h : c = '='
    · subst h
      simp [jsSplitEq, hasEq, specFirstKey, specFirstVal]
    · have hc : hasEq (c :: rest) = hasEq rest := by
        simp [hasEq, h]
      by_cases hr : hasEq rest
      · rw [jsSplitEq, if_neg h, ih, if_pos hr]
        rw [if_pos (by rw [hc]; exact hr)]
        rw [specFirstKey, if_neg h, specFirstVal, if_neg h]
      · rw [jsSplitEq, if_neg h, ih, if_neg hr]
        rw [if_neg (by rw [hc]; exact hr)]

theorem head_jsSplitEq (s : Str) :
    ∃ t, jsSplitEq s = specFirstKey s :: t := by
  rw [jsSplitEq_eq]
  by_cases h : hasEq s
  · rw [if_pos h]; exact ⟨_, rfl⟩
  · rw [if_neg h, specFirstKey_of_not_hasEq s (by simpa using h)]
    exact ⟨_, rfl⟩

theorem parseKeyValuePair_eq (s : Str) (M : List (Str × Str)) :
    parseKeyValuePair s M =
      if hasEq s ∧ specFirstKey s ≠ [] ∧ secondSegment s ≠ [] then
        setKey M (specFirstKey s) (secondSegment s)
      else M := by
  unfold parseKeyValuePair
  by_cases h : hasEq s
  · obtain ⟨t, ht⟩ := head_jsSplitEq (specFirstVal s)
    rw [jsSplitEq_eq, if_pos h, ht]
    show (if specFirstKey s ≠ [] ∧ secondSegment s ≠ [] then
        setKey M (specFirstKey s) (secondSegment s) else M) = _
    by_cases hk : specFirstKey s ≠ [] ∧ secondSegment s ≠ []
    · rw [if_pos hk, if_pos ⟨h, hk⟩]
    · rw [if_neg hk, if_neg (by rintro ⟨-, h₂⟩; exact hk h₂)]
  · rw [jsSplitEq_eq, if_neg h]
    rw [if_neg (by rintro ⟨h₁, -⟩; exact h h₁)]

/-! ## Claim theorems -/

/-- C2 counterexample: the claim says the parser splits on the FIRST
`=` only, so that for `a=b=c` the key `a` would be bound to the full
value `b=c`.  The string `a=b=c` contains `=` with non-empty key
(`a`) and non-empty first-split value (`b=c`), yet the parser binds
`a` to `b` (the JS `split("=")` destructuring truncates the value at
the second `=`), not to `b=c`. -/
theorem keyValueParser_first_split_counterexample :
    hasEq ['a', '=', 'b', '=', 'c'] = true ∧
    specFirstKey ['a', '=', 'b', '=', 'c'] ≠ [] ∧
    specFirstVal ['a', '=', 'b', '=', 'c'] ≠ [] ∧
    lookupKey (['a'] : Str) (parseKeyValuePair ['a', '=', 'b', '=', 'c'] []) = some ['b'] ∧
    lookupKey (specFirstKey ['a', '=', 'b', '=', 'c'])
        (parseKeyValuePair ['a', '=', 'b', '=', 'c'] []) ≠
      some (specFirstVal ['a', '=', 'b', '=', 'c']) := by
  decide

/-- C2 (amended): for every string whose first two `=`-separated
segments (the key, and the value TRUNCATED at the second `=`) are both
non-empty, the parser returns the previous mapping with the key bound
to that truncated value (overwriting any prior binding) and every
other key unchanged. -/
theorem keyValueParser_sets_truncated_value (s : Str) (M : List (Str × Str))
    (h₁ : hasEq s = true) (h₂ : specFirstKey s ≠ []) (h₃ : secondSegment s ≠ []) :
    lookupKey (specFirstKey s) (parseKeyValuePair s M) = some (secondSegment s) ∧
    ∀ k, k ≠ specFirstKey s → lookupKey k (parseKeyValuePair s M) = lookupKey k M := by
  rw [parseKeyValuePair_eq, if_pos ⟨h₁, h₂, h₃⟩]
  constructor
  · rw [lookupKey_setKey]; simp
  · intro k hk
    rw [lookupKey_setKey, if_neg (fun h => hk h.symm)]

/-- C2 witness: `a=b` against the mapping `x ↦ y` binds `a ↦ b` and
leaves `x` untouched. -/
theorem keyValueParser_sets_truncated_value_witness :
    lookupKey (['a'] : Str) (parseKeyValuePair ['a', '=', 'b'] [(['x'], ['y'])]) = some ['b'] ∧
    lookupKey (['x'] : Str) (parseKeyValuePair ['a', '=', 'b'] [(['x'], ['y'])]) =
      lookupKey ['x'] [(['x'], ['y'])] := by
  have h := keyValueParser_sets_truncated_value ['a', '=', 'b'] [(['x'], ['y'])]
    (by decide) (by decide) (by decide)
  exact ⟨h.1, h.2 ['x'] (by decide)⟩

/-- C9: a string with no `=`, or whose first-`=` split yields an empty
key or an empty value, leaves the accumulated mapping unchanged — the
malformed pair is dropped entirely, never inserted as an empty
binding, and no error is raised. -/
theorem keyValueParser_drops_malformed (s : Str) (M : List (Str × Str))
    (h : hasEq s = false ∨ specFirstKey s = [] ∨ specFirstVal s = []) :
    parseKeyValuePair s M = M := by
  rw [parseKeyValuePair_eq]
  rcases h with h | h | h
  · rw [if_neg]
    rintro ⟨h₁, -⟩
    rw [h] at h₁
    exact absurd h₁ (by simp)
  · rw [if_neg]
    rintro ⟨-, h₂, -⟩
    exact h₂ h
  · rw [if_neg]
    rintro ⟨-, -, h₃⟩
    exact h₃ (by simp only [secondSegment, h]; rfl)

/-- C9 witness: the flag value `a` (no `=`) leaves `x ↦ y` unchanged. -/
theorem keyValueParser_drops_malformed_witness :
    parseKeyValuePair ['a'] [(['x'], ['y'])] = [(['x'], ['y'])] :=
  keyValueParser_drops_malformed ['a'] [(['x'], ['y'])] (Or.inl (by decide))

/-- C7: the child process environment is the ambient process
environment overlaid (in order) by the SDK protocol defaults, the
out-of-band channel variables, and the descriptor's `envOverrides`;
on any key collision the later layer wins (lookup precedence
`envOverrides`, then out-of-band, then defaults, then ambient). -/
theorem childEnv_layer_precedence (ambient sdkDefaults oob envVars : Env) (k : String)
    (hd : (keysOf sdkDefaults).Nodup) (ho : (keysOf oob).Nodup)
    (hv : (keysOf envVars).Nodup) :
    lookupKey k (buildChildEnv ambient sdkDefaults oob envVars) =
      (lookupKey k envVars).orElse (fun _ =>
        (lookupKey k oob).orElse (fun _ =>
          (lookupKey k sdkDefaults).orElse (fun _ => lookupKey k ambient))) := by
  unfold buildChildEnv defaultEnvironment
  rw [lookupKey_overlay _ _ _ hv,
    lookupKey_overlay _ _ _ (nodup_keys_overlay sdkDefaults oob hd),
    lookupKey_overlay _ _ _ ho]
  cases lookupKey k envVars <;> cases lookupKey k oob <;>
    cases lookupKey k sdkDefaults <;> simp [Option.orElse]

/-- C7 witness: with the key `K` bound in all four layers, the
descriptor's override wins. -/
theorem childEnv_layer_precedence_witness :
    lookupKey "K" (buildChildEnv [("K", "ambient"), ("A", "a")]
      [("K", "default"), ("D", "d")] [("K", "oob")] [("K", "override")]) =
      some "override" := by
  have h := childEnv_layer_precedence [("K", "ambient"), ("A", "a")]
    [("K", "default"), ("D", "d")] [("K", "oob")] [("K", "override")] "K"
    (by decide) (by decide) (by decide)
  rw [h]
  simp [lookupKey, Option.orElse]

/-- C1 (refuted, code bug): on a successful CLI run the process writes
seven lines to standard output — six progress/diagnostic messages
(`Executing tool call: ...`, `Tool arguments: ...`, `Stdio transport:
...`, `Connected to MCP server via stdio transport`, `Calling tool:
...`, `Tool call result:`) followed by the serialized JSON result —
not exactly one JSON document. -/
theorem cliSuccess_stdout_not_single_document
    (toolName toolArgsJson cmd argsJoined resultJson : String) :
    stdoutWrites (cliSuccessStdout toolName toolArgsJson cmd argsJoined resultJson) = 7 ∧
    stdoutWrites (cliSuccessStdout toolName toolArgsJson cmd argsJoined resultJson) ≠ 1 := by
  constructor <;> simp [stdoutWrites, cliSuccessStdout]

/-- C3 counterexample: when the tool call itself succeeds but the
subsequent `transport.close()` throws, the close error is caught by
the outer `catch` and rethrown — the close failure replaces the
successful outcome (the process then exits 1), contradicting the
claim that a close failure never replaces the original outcome. -/
theorem executor_close_masks_success_counterexample :
    (executeToolCall (Except.ok 0 : Except String Nat) (some "close failure") none).result =
      Except.error "close failure" ∧
    (executeToolCall (Except.ok 0 : Except String Nat) (some "close failure") none).result ≠
      Except.ok 0 := by
  exact ⟨rfl, fun h => Except.noConfusion h⟩

/-- C3 (amended): the executor closes the transport on every exit
path; when the call itself failed, a subsequent close failure is only
logged and the original error still propagates; when the call
succeeded and the close also succeeded, the result propagates — but a
close failure after a successful call is itself rethrown and replaces
the success outcome. -/
theorem executor_closes_and_error_propagates {Res Err : Type}
    (call : Except Err Res) (closeA closeB : Option Err) :
    1 ≤ (executeToolCall call closeA closeB).closeCalls ∧
    (∀ e, call = .error e → (executeToolCall call closeA closeB).result = .error e) ∧
    (∀ e ce, call = .error e → closeA = some ce →
      (executeToolCall call closeA closeB).loggedCloseErrors = [ce]) ∧
    (∀ r, call = .ok r → closeA = none →
      (executeToolCall call closeA closeB).result = .ok r) ∧
    (∀ r ce, call = .ok r → closeA = some ce →
      (executeToolCall call closeA closeB).result = .error ce) := by
  rcases call with e | r <;> rcases closeA with - | ce <;> rcases closeB with - | ce2 <;>
    simp [executeToolCall]

/-- C3 witness: a failed call with a failing close keeps the original
error, logs the close failure, and closed the transport once; a
succeeding call with a succeeding close propagates the result. -/
theorem executor_closes_and_error_propagates_witness :
    1 ≤ (executeToolCall (Except.error "call failed" : Except String Nat)
          (some "close failure") none).closeCalls ∧
    (executeToolCall (Except.error "call failed" : Except String Nat)
        (some "close failure") none).result = Except.error "call failed" ∧
    (executeToolCall (Except.error "call failed" : Except String Nat)
        (some "close failure") none).loggedCloseErrors = ["close failure"] ∧
    (executeToolCall (Except.ok 7 : Except String Nat) none none).result = Except.ok 7 := by
  have h₁ := executor_closes_and_error_propagates
    (Except.error "call failed" : Except String Nat) (some "close failure") none
  have h₂ := executor_closes_and_error_propagates
    (Except.ok 7 : Except String Nat) none none
  exact ⟨h₁.1, h₁.2.1 "call failed" rfl, h₁.2.2.1 "call failed" "close failure" rfl rfl,
    h₂.2.2.2.1 7 rfl rfl⟩

/-- C5: whenever the configuration document lacks the top-level
`mcpServers` key or does not contain the requested profile, resolution
fails with exit code 1 and the error enumerates exactly the profile
names actually present (the empty list when `mcpServers` is absent or
empty, still carried explicitly by the message). -/
theorem loadConfig_profileNotFound_enumerates (d : ConfigDoc) (path name : String)
    (h : d.mcpServers = none ∨ lookupKey name (d.mcpServers.getD []) = none) :
    loadConfigFile (fun _ => FsFile.doc d) path name =
      .error (.profileNotFound name (availableServers d)) ∧
    (ConfigError.profileNotFound name (availableServers d)).exitCode = 1 := by
  refine ⟨?_, rfl⟩
  rcases hm : d.mcpServers with - | servers
  · simp [loadConfigFile, hm, availableServers, keysOf]
  · rcases h with h | h
    · rw [hm] at h; exact absurd h (by simp)
    · rw [hm] at h
      simp only [Option.getD] at h
      simp [loadConfigFile, hm, h, availableServers]

/-- C5 witness (end-to-end scenario C): requesting profile `dev` from
a document whose `mcpServers` holds only `prod` fails with exit code 1
and enumerates exactly `["prod"]`. -/
theorem loadConfig_profileNotFound_enumerates_witness :
    loadConfigFile
        (fun _ => FsFile.doc ⟨some [("prod", ⟨"node", none, none⟩)]⟩) "cfg.json" "dev" =
      .error (.profileNotFound "dev" ["prod"]) ∧
    (ConfigError.profileNotFound "dev" ["prod"]).exitCode = 1 := by
  have h := loadConfig_profileNotFound_enumerates
    ⟨some [("prod", ⟨"node", none, none⟩)]⟩ "cfg.json" "dev" (Or.inr (by decide))
  exact h

/-- C6: in both ingestion channels of the CLI child (argv parsing and
the environment-variable channel), an empty resolved tool name
terminates the run with exit code 1 before the execution step runs,
so no server process is ever spawned. -/
theorem emptyToolName_exits_before_spawn
    (o : CliOpts) (exec : CliConfig → Nat × List String)
    (e : ProcEnv) (exec2 : EnvChannelConfig → Nat × List String)
    (h₁ : o.toolName = "") (h₂ : e.mcpToolName.getD "" = "") :
    mainCli exec o = (1, []) ∧ mainEnvChannel exec2 e = (1, []) := by
  constructor
  · simp [mainCli, parseArgsCli, h₁, CliErr.exitCode]
  · simp [mainEnvChannel, getConfigFromEnvironment, h₂]

/-- C6 witness: omitting `--tool-name` (and leaving `MCP_TOOL_NAME`
unset) exits 1 with nothing spawned, even though a server command was
supplied and the execution step would have spawned it. -/
theorem emptyToolName_exits_before_spawn_witness :
    mainCli (fun cfg => (0, [cfg.mcpServerCommand])) ⟨[], "", [], ["node", "server.js"]⟩ =
      (1, []) ∧
    mainEnvChannel (fun cfg => (0, [cfg.command.getD ""])) ⟨none, none, some "node", none, none⟩ =
      (1, []) :=
  emptyToolName_exits_before_spawn ⟨[], "", [], ["node", "server.js"]⟩
    (fun cfg => (0, [cfg.mcpServerCommand])) ⟨none, none, some "node", none, none⟩
    (fun cfg => (0, [cfg.command.getD ""])) rfl rfl

/-- C4: when a configuration profile is selected (config path and
server name both supplied) and the run passes the other validations,
the descriptor's server command, server arguments, and environment
overrides come exclusively from the resolved profile, and the whole
parse outcome is unchanged when the positional tokens and `-e` flag
values are deleted — they are ignored, not merged. -/
theorem configProfile_replaces_positionals (fs : Fs) (o : ParsedOpts) (p : ServerProfile)
    (hc : o.configPath ≠ "") (hs : o.serverName ≠ "")
    (h₃ : ¬(o.cliMode ∧ o.toolName = "")) (h₄ : ¬(¬o.cliMode ∧ o.toolName ≠ ""))
    (h₅ : ¬(o.toolArgs ≠ [] ∧ (¬o.cliMode ∨ o.toolName = "")))
    (hload : loadConfigFile fs o.configPath o.serverName = .ok p) :
    (parseArgsTop fs o).result =
      .ok ⟨p.command, p.args.getD [], .profileEnv (p.env.getD []),
        o.configPath, o.serverName, o.cliMode, o.toolName, o.toolArgs⟩ ∧
    parseArgsTop fs o =
      parseArgsTop fs
        ⟨[], o.configPath, o.serverName, o.cliMode, o.toolName, o.toolArgs, [], []⟩ := by
  have h₁ : ¬(o.configPath ≠ "" ∧ o.serverName = "") := fun hh => hs hh.2
  have h₂ : ¬(o.configPath = "" ∧ o.serverName ≠ "") := fun hh => hc hh.1
  have key : ∀ ef rk ru : List String,
      parseArgsTop fs ⟨ef, o.configPath, o.serverName, o.cliMode, o.toolName, o.toolArgs, rk, ru⟩ =
        ⟨.ok ⟨p.command, p.args.getD [], .profileEnv (p.env.getD []),
          o.configPath, o.serverName, o.cliMode, o.toolName, o.toolArgs⟩, [o.configPath]⟩ := by
    intro ef rk ru
    unfold parseArgsTop
    dsimp only
    rw [if_neg h₁, if_neg h₂, if_neg h₃, if_neg h₄, if_neg h₅, if_pos hc, hload]
  constructor
  · exact congrArg ParseOutcome.result (key o.envFlags o.remainingKnown o.remainingUnknown)
  · rw [key [] [] []]
    exact key o.envFlags o.remainingKnown o.remainingUnknown

/-- C4 witness: with a profile `dev` resolving to
`python -m srv` with env `K=V`, and positional tokens, passthrough
tokens, and `-e` flags also supplied, the descriptor comes entirely
from the profile and clearing the positional/env inputs leaves the
outcome unchanged. -/
theorem configProfile_replaces_positionals_witness :
    (parseArgsTop
        (fun _ => FsFile.doc ⟨some [("dev", ⟨"python", some ["-m", "srv"], some [("K", "V")]⟩)]⟩)
        ⟨["A=1"], "cfg.json", "dev", true, "calc", ["a=5"],
          ["node", "other.js"], ["--tool-name"]⟩).result =
      .ok ⟨"python", ["-m", "srv"], .profileEnv [("K", "V")],
        "cfg.json", "dev", true, "calc", ["a=5"]⟩ ∧
    parseArgsTop
        (fun _ => FsFile.doc ⟨some [("dev", ⟨"python", some ["-m", "srv"], some [("K", "V")]⟩)]⟩)
        ⟨["A=1"], "cfg.json", "dev", true, "calc", ["a=5"],
          ["node", "other.js"], ["--tool-name"]⟩ =
      parseArgsTop
        (fun _ => FsFile.doc ⟨some [("dev", ⟨"python", some ["-m", "srv"], some [("K", "V")]⟩)]⟩)
        ⟨[], "cfg.json", "dev", true, "calc", ["a=5"], [], []⟩ :=
  configProfile_replaces_positionals
    (fun _ => FsFile.doc ⟨some [("dev", ⟨"python", some ["-m", "srv"], some [("K", "V")]⟩)]⟩)
    ⟨["A=1"], "cfg.json", "dev", true, "calc", ["a=5"], ["node", "other.js"], ["--tool-name"]⟩
    ⟨"python", some ["-m", "srv"], some [("K", "V")]⟩
    (by decide) (by decide) (by decide) (by decide) (by decide) rfl

/-- C8: supplying the config path without the server name, or the
server name without the config path, fails validation with exit code 1
and no configuration file is ever opened (the file-read trace is
empty). -/
theorem configServer_coOccurrence_fails_before_io (fs : Fs) (o : ParsedOpts)
    (h : (o.configPath ≠ "" ∧ o.serverName = "") ∨ (o.configPath = "" ∧ o.serverName ≠ "")) :
    resultExitCode (parseArgsTop fs o).result = some 1 ∧
    (parseArgsTop fs o).filesRead = [] := by
  rcases h with h | h
  · unfold parseArgsTop
    rw [if_pos h]
    exact ⟨rfl, rfl⟩
  · unfold parseArgsTop
    rw [if_neg (fun hc => hc.1 h.1), if_pos h]
    exact ⟨rfl, rfl⟩

/-- C8 witness: `--config cfg.json` with no `--server` exits 1 without
reading `cfg.json`, even though the file exists and parses. -/
theorem configServer_coOccurrence_fails_before_io_witness :
    resultExitCode
        (parseArgsTop (fun _ => FsFile.doc ⟨some [("prod", ⟨"node", none, none⟩)]⟩)
          ⟨[], "cfg.json", "", false, "", [], [], []⟩).result = some 1 ∧
    (parseArgsTop (fun _ => FsFile.doc ⟨some [("prod", ⟨"node", none, none⟩)]⟩)
        ⟨[], "cfg.json", "", false, "", [], [], []⟩).filesRead = [] :=
  configServer_coOccurrence_fails_before_io
    (fun _ => FsFile.doc ⟨some [("prod", ⟨"node", none, none⟩)]⟩)
    ⟨[], "cfg.json", "", false, "", [], [], []⟩ (Or.inl ⟨by decide, rfl⟩)

/-- C10: in the top-level front-end, `--cli` without `--tool-name` or
`--tool-name` without `--cli` always terminates with exit code 1
before either the web or the CLI mode is entered (the dispatcher never
receives a mode). -/
theorem cliToolName_coOccurrence_fatal (fs : Fs) (o : ParsedOpts)
    (h : (o.cliMode ∧ o.toolName = "") ∨ (¬o.cliMode ∧ o.toolName ≠ "")) :
    mainExitCode (mainTop fs o) = some 1 := by
  by_cases c₁ : o.configPath ≠ "" ∧ o.serverName = ""
  · unfold mainTop parseArgsTop
    rw [if_pos c₁]
    rfl
  · by_cases c₂ : o.configPath = "" ∧ o.serverName ≠ ""
    · unfold mainTop parseArgsTop
      rw [if_neg c₁, if_pos c₂]
      rfl
    · rcases h with h | h
      · unfold mainTop parseArgsTop
        rw [if_neg c₁, if_neg c₂, if_pos h]
        rfl
      · unfold mainTop parseArgsTop
        rw [if_neg c₁, if_neg c₂, if_neg (fun hc => h.1 hc.1), if_pos h]
        rfl

/-- C10 witness: `--tool-name calc` without `--cli` exits 1 and
neither mode runs. -/
theorem cliToolName_coOccurrence_fatal_witness :
    mainExitCode
        (mainTop (fun _ => FsFile.missing) ⟨[], "", "", false, "calc", [], [], []⟩) =
      some 1 :=
  cliToolName_coOccurrence_fatal (fun _ => FsFile.missing)
    ⟨[], "", "", false, "calc", [], [], []⟩ (Or.inr ⟨by decide, by decide⟩)

end Inspector






